import Mathlib

/-!
Verification of the server-side WebSocket endpoint of this repository.

The Lean definitions below are a shallow embedding of the Python sources:
  * `src/websocket/_websocket.py`  (frame codec, worker loop, close protocol,
    public `send`/`recv`/`ping` API)
  * `src/websocket/_accept.py`     (HTTP upgrade handshake, accept key)
  * `src/websocket/_http.py`       (HTTP request parsing)
  * `src/concurrent/_promise.py`   (single-shot promise)

Bytes are modelled as `Nat` values `< 256`, byte strings as `List Nat`,
Python `str` as Lean `String`.  Machine arithmetic does not occur: Python
integers are unbounded, and the only width-sensitive operations
(`int.to_bytes` / `int.from_bytes`, the SHA-1 32-bit arithmetic) are made
explicit with `% 2 ^ w`.
-/

namespace WS

/-! ## Byte-level helpers (`int.to_bytes` / `int.from_bytes`, big-endian) -/

/-- `n.to_bytes(w, 'big')`: `w` bytes, big-endian.  Python raises
`OverflowError` for `n ≥ 256 ^ w`; the callers below always satisfy the
bound, which theorems carry as a hypothesis. -/
def toBytesBE : Nat → Nat → List Nat
  | 0, _ => []
  | w + 1, n => toBytesBE w (n / 256) ++ [n % 256]

/-- `int.from_bytes(l, 'big')`. -/
def fromBytesBE (l : List Nat) : Nat :=
  l.foldl (fun a b => a * 256 + b) 0

theorem fromBytesBE_append_one (xs : List Nat) (b : Nat) :
    fromBytesBE (xs ++ [b]) = fromBytesBE xs * 256 + b := by
  simp [fromBytesBE, List.foldl_append]

theorem length_toBytesBE (w n : Nat) : (toBytesBE w n).length = w := by
  induction w generalizing n with
  | zero => rfl
  | succ w ih => simp [toBytesBE, ih]

theorem fromBytesBE_toBytesBE (w n : Nat) :
    fromBytesBE (toBytesBE w n) = n % 256 ^ w := by
  induction w generalizing n with
  | zero => simp [toBytesBE, fromBytesBE, Nat.mod_one]
  | succ w ih =>
    rw [toBytesBE, fromBytesBE_append_one, ih, pow_succ,
      Nat.mul_comm (256 ^ w) 256, Nat.mod_mul]
    ring

theorem fromBytesBE_toBytesBE_of_lt {w n : Nat} (h : n < 256 ^ w) :
    fromBytesBE (toBytesBE w n) = n := by
  rw [fromBytesBE_toBytesBE, Nat.mod_eq_of_lt h]

/-! ## Protocol constants (`src/websocket/_settings.py`) -/

def REASON_NORMAL : Nat := 1000
def REASON_PROTOCOL_ERROR : Nat := 1002
def REASON_NOT_SUPPORTED : Nat := 1003

/-- `REASON_MESSAGE.get(reason, '')`. -/
def reasonMessage (r : Nat) : String :=
  if r = REASON_PROTOCOL_ERROR then "Protocol error"
  else if r = REASON_NOT_SUPPORTED then "Unknown opcode"
  else ""

def OPCODE_TEXT : Nat := 0x01
def OPCODE_BINARY : Nat := 0x02
def OPCODE_CLOSE : Nat := 0x08
def OPCODE_PING : Nat := 0x09
def OPCODE_PONG : Nat := 0x0A

/-! ## Frame codec (`WebSocket.__send_packet` / `WebSocket.__recv_packet`) -/

/-- `WebSocket.__send_packet(opcode, data)`: the exact byte sequence written
to the socket (header followed by payload, FIN=1, RSV=0, MASK=0). -/
def sendPacketBytes (opcode : Nat) (data : List Nat) : List Nat :=
  let length := data.length
  let header :=
    if length < 126 then [0x80 ||| opcode, length]
    else if length < 0x10000 then [0x80 ||| opcode, 126] ++ toBytesBE 2 length
    else [0x80 ||| opcode, 127] ++ toBytesBE 8 length
  header ++ data

/-- `WebSocket.__recv_all(n)` applied to a buffered input: `some` splits off
exactly `n` bytes, `none` models the blocking wait for more input. -/
def readN (n : Nat) (input : List Nat) : Option (List Nat × List Nat) :=
  if n ≤ input.length then some (input.take n, input.drop n) else none

theorem readN_exact {n : Nat} {l r : List Nat} (h : l.length = n) :
    readN n (l ++ r) = some (l, r) := by
  subst h
  simp [readN, List.take_append, List.drop_append]

theorem readN_length_le {n : Nat} {input a b : List Nat}
    (h : readN n input = some (a, b)) : b.length ≤ input.length := by
  unfold readN at h
  split at h
  · cases h; simp
  · cases h

/-- `WebSocket.__recv_packet()` on a buffered input byte sequence.
Returns `(fin, opcode, data, rest)`; `none` models blocking on a
truncated frame. -/
def recvPacketBytes (input : List Nat) : Option (Nat × Nat × List Nat × List Nat) :=
  match input with
  | o1 :: o2 :: rest =>
    let fin := o1 >>> 7
    let opcode := o1 &&& 0x0F
    let mask := o2 >>> 7
    let len0 := o2 &&& 0x7F
    let step1 : Option (Nat × List Nat) :=
      if len0 = 126 then (readN 2 rest).map (fun p => (fromBytesBE p.1, p.2))
      else if len0 = 127 then (readN 8 rest).map (fun p => (fromBytesBE p.1, p.2))
      else some (len0, rest)
    match step1 with
    | none => none
    | some (length, rest1) =>
      let step2 : Option (Option (List Nat) × List Nat) :=
        if mask = 1 then (readN 4 rest1).map (fun p => (some p.1, p.2))
        else some (none, rest1)
      match step2 with
      | none => none
      | some (key?, rest2) =>
        match readN length rest2 with
        | none => none
        | some (raw, rest3) =>
          let data := match key? with
            | some key => raw.mapIdx (fun i b => b ^^^ key.getD (i % 4) 0)
            | none => raw
          some (fin, opcode, data, rest3)
  | _ => none

theorem hdr1_shift : ∀ o < 16, (0x80 ||| o) >>> 7 = 1 := by decide

theorem hdr1_and : ∀ o < 16, (0x80 ||| o) &&& 0x0F = o := by decide

theorem len_and : ∀ l < 126, l &&& 0x7F = l := by decide

theorem len_shift : ∀ l < 126, l >>> 7 = 0 := by decide

theorem readN_all (l : List Nat) : readN l.length l = some (l, []) := by
  simp [readN]

/-- Decoding a frame produced by the encoder restores `fin = 1`, the opcode
and the payload, and consumes the whole frame. -/
theorem recvPacket_sendPacket (opcode : Nat) (data : List Nat)
    (hop : opcode < 16) (hlen : data.length < 2 ^ 64) :
    recvPacketBytes (sendPacketBytes opcode data) = some (1, opcode, data, []) := by
  have h1 : (0x80 ||| opcode) >>> 7 = 1 := hdr1_shift opcode hop
  have h2 : (0x80 ||| opcode) &&& 0x0F = opcode := hdr1_and opcode hop
  by_cases hA : data.length < 126
  · have e : sendPacketBytes opcode data
        = (0x80 ||| opcode) :: data.length :: data := by
      simp [sendPacketBytes, hA]
    have hne126 : data.length ≠ 126 := by omega
    have hne127 : data.length ≠ 127 := by omega
    rw [e]
    simp only [recvPacketBytes, h1, h2, len_and data.length hA,
      len_shift data.length hA, hne126, hne127, if_false, ite_false]
    simp [readN_all]
  · by_cases hB : data.length < 0x10000
    · have e : sendPacketBytes opcode data
          = (0x80 ||| opcode) :: 126 :: (toBytesBE 2 data.length ++ data) := by
        simp [sendPacketBytes, hA, hB]
      rw [e]
      have hr2 : readN 2 (toBytesBE 2 data.length ++ data)
          = some (toBytesBE 2 data.length, data) :=
        readN_exact (length_toBytesBE 2 data.length)
      have hfb : fromBytesBE (toBytesBE 2 data.length) = data.length :=
        fromBytesBE_toBytesBE_of_lt (by norm_num at hB ⊢; omega)
      have d1 : (126 : Nat) &&& 127 = 126 := by decide
      have d2 : (126 : Nat) >>> 7 = 0 := by decide
      simp only [recvPacketBytes, h1, h2, d1, d2, hr2]
      simp [hfb, readN_all]
    · have e : sendPacketBytes opcode data
          = (0x80 ||| opcode) :: 127 :: (toBytesBE 8 data.length ++ data) := by
        simp [sendPacketBytes, hA, hB]
      rw [e]
      have hr8 : readN 8 (toBytesBE 8 data.length ++ data)
          = some (toBytesBE 8 data.length, data) :=
        readN_exact (length_toBytesBE 8 data.length)
      have hfb : fromBytesBE (toBytesBE 8 data.length) = data.length :=
        fromBytesBE_toBytesBE_of_lt (by norm_num at hlen ⊢; omega)
      have d3 : (127 : Nat) &&& 127 = 127 := by decide
      have d4 : (127 : Nat) >>> 7 = 0 := by decide
      simp only [recvPacketBytes, h1, h2, d3, d4, hr8]
      simp [hfb, readN_all]

/-- A successfully decoded packet consumes at least its two header bytes. -/
theorem recvPacket_rest_lt {input : List Nat} {f o : Nat} {d rest : List Nat}
    (h : recvPacketBytes input = some (f, o, d, rest)) :
    rest.length < input.length := by
  match input with
  | [] => simp [recvPacketBytes] at h
  | [x] => simp [recvPacketBytes] at h
  | o1 :: o2 :: rest0 =>
    have key : rest.length ≤ rest0.length := by
      simp only [recvPacketBytes] at h
      split at h
      · exact absurd h (by simp)
      case h_2 length rest1 heq1 =>
        have hr1 : rest1.length ≤ rest0.length := by
          split at heq1
          · rcases hh : readN 2 rest0 with _ | ⟨a, b⟩ <;> rw [hh] at heq1
            · simp at heq1
            · simp at heq1
              rw [← heq1.2]
              exact readN_length_le hh
          · split at heq1
            · rcases hh : readN 8 rest0 with _ | ⟨a, b⟩ <;> rw [hh] at heq1
              · simp at heq1
              · simp at heq1
                rw [← heq1.2]
                exact readN_length_le hh
            · cases heq1; exact le_refl _
        split at h
        · exact absurd h (by simp)
        case h_2 key? rest2 heq2 =>
          have hr2 : rest2.length ≤ rest1.length := by
            split at heq2
            · rcases hh : readN 4 rest1 with _ | ⟨a, b⟩ <;> rw [hh] at heq2
              · simp at heq2
              · simp at heq2
                rw [← heq2.2]
                exact readN_length_le hh
            · cases heq2; exact le_refl _
          split at h
          · exact absurd h (by simp)
          case h_2 raw rest3 heq3 =>
            have hr3 : rest3.length ≤ rest2.length := readN_length_le heq3
            have h4 : rest3 = rest := by cases h; rfl
            subst h4
            omega
    simp only [List.length_cons]
    omega

/-- The `while not fin` loop of `WebSocket.__recv_message`: reads
continuation packets, asserting `opcode == 0`, until `fin` is nonzero.
`some (.error ())` is the failed `assert`; `none` models blocking. -/
def recvLoop (input : List Nat) : Option (Except Unit (List Nat × List Nat)) :=
  match h : recvPacketBytes input with
  | none => none
  | some (fin, opcode, data, rest) =>
    if opcode = 0 then
      if fin = 0 then
        match recvLoop rest with
        | none => none
        | some (Except.error e) => some (Except.error e)
        | some (Except.ok (d2, r2)) => some (Except.ok (data ++ d2, r2))
      else some (Except.ok (data, rest))
    else some (Except.error ())
termination_by input.length
decreasing_by exact recvPacket_rest_lt h

/-- `WebSocket.__recv_message()`: fragmented-message reassembly.  Returns
the first packet's opcode with the concatenated payload. -/
def recvMessageBytes (input : List Nat) :
    Option (Except Unit (Nat × List Nat × List Nat)) :=
  match recvPacketBytes input with
  | none => none
  | some (fin, opcode, data, rest) =>
    if fin = 0 then
      match recvLoop rest with
      | none => none
      | some (Except.error e) => some (Except.error e)
      | some (Except.ok (d2, r2)) => some (Except.ok (opcode, data ++ d2, r2))
    else some (Except.ok (opcode, data, rest))

/-- A client-side frame (unmasked) used as concrete wire input in the
statements below: `fin`, RSV bits and opcode packed into the first byte,
then the length field, then the payload. -/
def mkFrame (fin rsv opcode : Nat) (data : List Nat) : List Nat :=
  let length := data.length
  let lenBytes :=
    if length < 126 then [length]
    else if length < 0x10000 then [126] ++ toBytesBE 2 length
    else [127] ++ toBytesBE 8 length
  ((fin * 128 + rsv * 16 + opcode) :: lenBytes) ++ data

theorem octet1_fields : ∀ fin < 2, ∀ rsv < 8, ∀ o < 16,
    (fin * 128 + rsv * 16 + o) >>> 7 = fin
    ∧ (fin * 128 + rsv * 16 + o) &&& 0x0F = o := by decide

/-- Decoding a short single frame, for arbitrary RSV bits: the decoder
extracts `fin` and the opcode and never inspects RSV. -/
theorem recvPacket_mkFrame (fin rsv opcode : Nat) (data : List Nat)
    (hf : fin < 2) (hr : rsv < 8) (ho : opcode < 16) (hl : data.length < 126) :
    recvPacketBytes (mkFrame fin rsv opcode data) = some (fin, opcode, data, []) := by
  have h1 := (octet1_fields fin hf rsv hr opcode ho).1
  have h2 := (octet1_fields fin hf rsv hr opcode ho).2
  have e : mkFrame fin rsv opcode data
      = (fin * 128 + rsv * 16 + opcode) :: data.length :: data := by
    simp [mkFrame, hl]
  have hne126 : data.length ≠ 126 := by omega
  have hne127 : data.length ≠ 127 := by omega
  rw [e]
  simp only [recvPacketBytes, h1, h2, len_and data.length hl,
    len_shift data.length hl, hne126, hne127, if_false, ite_false]
  simp [readN_all]

/-! ## Errors (`src/websocket/exc.py`, built-in exceptions, concurrent exc) -/

inductive HsError where
  | badRequest
  | notFound
  | methodNotAllowed
  | requestTimeout
  | upgradeRequired
  deriving DecidableEq, Repr

inductive Exc where
  | assertionError
  | ioErrorClosed
  | timedOut
  | cancelledExc
  | hs (e : HsError)
  deriving DecidableEq, Repr

/-! ## Single-shot promise (`src/concurrent/_promise.py`)

The stored result value is always `None` in this codebase, so only the
state machine (`0` pending, `1` fulfilled, `2` errored — the numbering of
the source) and the stored error are modelled.  A failing Python `assert`
is `Except.error Exc.assertionError`. -/

structure Promise where
  state : Nat
  error : Option Exc
  deriving DecidableEq, Repr

def Promise.pending : Promise := ⟨0, none⟩

/-- `Promise.set_result(value)`. -/
def Promise.set_result (p : Promise) : Except Exc Promise :=
  if p.state ≠ 0 then Except.error Exc.assertionError
  else Except.ok { p with state := 1 }

/-- `Promise.set_error(error)`. -/
def Promise.set_error (p : Promise) (e : Exc) : Except Exc Promise :=
  if p.state ≠ 0 then Except.error Exc.assertionError
  else Except.ok { state := 2, error := some e }

/-- `Promise.cancel()` — delegates to `set_error(CancelledException())`. -/
def Promise.cancel (p : Promise) : Except Exc Promise :=
  p.set_error Exc.cancelledExc

/-- `Promise.cancelled` property. -/
def Promise.cancelled (p : Promise) : Bool :=
  p.state == 2 && p.error == some Exc.cancelledExc

/-- `Promise.done` property. -/
def Promise.done (p : Promise) : Bool := p.state != 0

/-! ## Endpoint state (`WebSocket.__init__`)

Promises are shared between caller threads and the worker, so they live in
a small id-addressed store `heap`; the output queue and the ping registry
refer to them by id. -/

abbrev Heap := List (Nat × Promise)

def heapGet (h : Heap) (i : Nat) : Option Promise :=
  (h.find? (fun q => q.1 == i)).map (·.2)

def heapSet (h : Heap) (i : Nat) (p : Promise) : Heap :=
  h.map (fun q => if q.1 = i then (i, p) else q)

inductive Msg where
  | text (s : String)
  | bin (b : List Nat)
  deriving DecidableEq, Repr

inductive SockAction where
  | sendBytes (b : List Nat)
  | shutdownWr
  | closeSock
  deriving DecidableEq, Repr

structure WSState where
  heap : Heap
  input : List Msg
  output : List (Option Nat × Nat × List Nat)
  pings : List (List Nat × Nat)
  handshake : Bool
  closed : Bool
  code : Option Nat
  reason : Option String
  message : Option String
  deriving DecidableEq, Repr

/-- The state right after `WebSocket.__init__`. -/
def initialState : WSState :=
  { heap := [], input := [], output := [], pings := [],
    handshake := false, closed := false,
    code := none, reason := none, message := none }

/-! ## UTF-8 (`str.encode()` / `bytes.decode(errors='ignore')`) -/

def utf8EncodeChar (c : Char) : List Nat :=
  let n := c.toNat
  if n < 0x80 then [n]
  else if n < 0x800 then [0xC0 + n / 64, 0x80 + n % 64]
  else if n < 0x10000 then [0xE0 + n / 4096, 0x80 + n / 64 % 64, 0x80 + n % 64]
  else [0xF0 + n / 262144, 0x80 + n / 4096 % 64, 0x80 + n / 64 % 64, 0x80 + n % 64]

def utf8Encode (s : String) : List Nat :=
  (s.data.map utf8EncodeChar).flatten

/-- One byte is a UTF-8 continuation byte. -/
def isCont (b : Nat) : Bool := 0x80 ≤ b && b ≤ 0xBF

/-- One step of CPython's UTF-8 decoder with `errors='ignore'`: given the
start byte `b` and the remaining input, the decoded character (or `none`
for an invalid or truncated sequence, which is dropped) and how many bytes
beyond `b` are consumed (the continuation bytes examined so far). -/
def utf8Step (b : Nat) (rest : List Nat) : Option Char × Nat :=
  if b < 0x80 then (some (Char.ofNat b), 0)
  else if 0xC2 ≤ b ∧ b ≤ 0xDF then
    match rest with
    | [] => (none, 0)
    | b1 :: _ =>
      if isCont b1 then (some (Char.ofNat ((b - 0xC0) * 64 + (b1 - 0x80))), 1)
      else (none, 0)
  else if 0xE0 ≤ b ∧ b ≤ 0xEF then
    let lo1 := if b = 0xE0 then 0xA0 else 0x80
    let hi1 := if b = 0xED then 0x9F else 0xBF
    match rest with
    | [] => (none, 0)
    | b1 :: rest1 =>
      if lo1 ≤ b1 ∧ b1 ≤ hi1 then
        match rest1 with
        | [] => (none, 1)
        | b2 :: _ =>
          if isCont b2 then
            (some (Char.ofNat ((b - 0xE0) * 4096 + (b1 - 0x80) * 64 + (b2 - 0x80))), 2)
          else (none, 1)
      else (none, 0)
  else if 0xF0 ≤ b ∧ b ≤ 0xF4 then
    let lo1 := if b = 0xF0 then 0x90 else 0x80
    let hi1 := if b = 0xF4 then 0x8F else 0xBF
    match rest with
    | [] => (none, 0)
    | b1 :: rest1 =>
      if lo1 ≤ b1 ∧ b1 ≤ hi1 then
        match rest1 with
        | [] => (none, 1)
        | b2 :: rest2 =>
          if isCont b2 then
            match rest2 with
            | [] => (none, 2)
            | b3 :: _ =>
              if isCont b3 then
                (some (Char.ofNat ((b - 0xF0) * 262144 + (b1 - 0x80) * 4096
                    + (b2 - 0x80) * 64 + (b3 - 0x80))), 3)
              else (none, 2)
          else (none, 1)
      else (none, 0)
  else (none, 0)

/-- Worker for `utf8DecodeLossy`, structurally recursive on a fuel that the
wrapper sets to the input length; every step consumes the start byte, so
that fuel is never exhausted. -/
def utf8DecodeLossyAux : Nat → List Nat → List Char
  | _, [] => []
  | 0, _ :: _ => []
  | fuel + 1, b :: rest =>
    match utf8Step b rest with
    | (some c, k) => c :: utf8DecodeLossyAux fuel (rest.drop k)
    | (none, k) => utf8DecodeLossyAux fuel (rest.drop k)

/-- `bytes.decode('utf-8', errors='ignore')`: maximal valid sequences are
decoded, invalid or truncated sequences are dropped. -/
def utf8DecodeLossy (l : List Nat) : List Char :=
  utf8DecodeLossyAux l.length l

def utf8DecodeLossyStr (l : List Nat) : String :=
  String.mk (utf8DecodeLossy l)

instance {ε α : Type} [DecidableEq ε] [DecidableEq α] : DecidableEq (Except ε α) :=
  fun x y =>
    match x, y with
    | Except.ok a, Except.ok b =>
      match decEq a b with
      | isTrue h => isTrue (h ▸ rfl)
      | isFalse h => isFalse (fun hh => h (Except.ok.inj hh))
    | Except.error a, Except.error b =>
      match decEq a b with
      | isTrue h => isTrue (h ▸ rfl)
      | isFalse h => isFalse (fun hh => h (Except.error.inj hh))
    | Except.ok _, Except.error _ => isFalse (fun hh => Except.noConfusion hh)
    | Except.error _, Except.ok _ => isFalse (fun hh => Except.noConfusion hh)

/-! ## Ping registry as a dict (`self.__ping`), keys unique -/

def pingsLookup (l : List (List Nat × Nat)) (k : List Nat) : Option Nat :=
  (l.find? (fun q => q.1 == k)).map (·.2)

def pingsRemove (l : List (List Nat × Nat)) (k : List Nat) : List (List Nat × Nat) :=
  l.filter (fun q => q.1 != k)

def pingsSet (l : List (List Nat × Nat)) (k : List Nat) (v : Nat) :
    List (List Nat × Nat) :=
  if (l.find? (fun q => q.1 == k)).isSome then
    l.map (fun q => if q.1 == k then (k, v) else q)
  else l ++ [(k, v)]

/-! ## Close protocol (`WebSocket.__close`) -/

/-- The drain loop at the end of `__close`: pops every output entry and
calls `set_error(IOError('WebSocket is closed'))` on each non-cancelled
promise.  A promise that is already fulfilled would make the Python
`assert` in `set_error` fail; that propagates as `Except.error`. -/
def drainOutput (heap : Heap) : List (Option Nat × Nat × List Nat) → Except Exc Heap
  | [] => Except.ok heap
  | (pid?, _, _) :: rest =>
    match pid? with
    | none => drainOutput heap rest
    | some pid =>
      match heapGet heap pid with
      | none => drainOutput heap rest
      | some p =>
        if p.cancelled then drainOutput heap rest
        else
          match p.set_error Exc.ioErrorClosed with
          | Except.error e => Except.error e
          | Except.ok p' => drainOutput (heapSet heap pid p') rest

/-- `WebSocket.__close(reason)`: emits a CLOSE frame when a reason is given
and the handshake has completed (note the source stores the registered
message into `self.__message`, not `self.__reason`), half-closes the write
side, closes the transport, latches `closed`, and drains the output queue.
The returned list is the sequence of socket operations performed. -/
def wsClose (st : WSState) (reason : Option Nat) :
    Except Exc (WSState × List SockAction) :=
  if st.closed then Except.ok (st, [])
  else
    let stage1 : WSState × List SockAction :=
      match reason with
      | some r =>
        if st.handshake then
          ({ st with code := some r, message := some (reasonMessage r) },
           [SockAction.sendBytes
              (sendPacketBytes OPCODE_CLOSE (toBytesBE 2 r ++ utf8Encode (reasonMessage r)))])
        else (st, [])
      | none => (st, [])
    match drainOutput stage1.1.heap stage1.1.output with
    | Except.error e => Except.error e
    | Except.ok heap' =>
      Except.ok ({ stage1.1 with closed := true, heap := heap', output := [] },
        stage1.2 ++ [SockAction.shutdownWr, SockAction.closeSock])

/-- `WebSocket.close()` — the public API: a no-op when already closed,
otherwise `__close(REASON_NORMAL)` (the worker join is not modelled). -/
def wsClosePublic (st : WSState) : Except Exc (WSState × List SockAction) :=
  if st.closed then Except.ok (st, [])
  else wsClose st (some REASON_NORMAL)

/-! ## The worker's read-and-dispatch step (`WebSocket.__run`, read half) -/

/-- One `__recv_message` with the subsequent opcode dispatch of `__run`.
`none`: the worker would block on a truncated input.  An exception escaping
the dispatch (a promise `assert`) is `Except.error`, as in the source where
only `recv_message` itself is guarded by `try`. -/
def workerDispatch (st : WSState) (input : List Nat) :
    Option (Except Exc (WSState × List SockAction)) :=
  match recvMessageBytes input with
  | none => none
  | some (Except.error _) => some (wsClose st (some REASON_PROTOCOL_ERROR))
  | some (Except.ok (opcode, data, _rest)) =>
    if opcode = OPCODE_PING then
      some (Except.ok ({ st with output := st.output ++ [(none, OPCODE_PONG, data)] }, []))
    else if opcode = OPCODE_PONG then
      match pingsLookup st.pings data with
      | none => some (Except.ok ({ st with pings := pingsRemove st.pings data }, []))
      | some pid =>
        match heapGet st.heap pid with
        | none => some (Except.ok ({ st with pings := pingsRemove st.pings data }, []))
        | some p =>
          match p.set_result with
          | Except.error e => some (Except.error e)
          | Except.ok p' =>
            some (Except.ok ({ st with pings := pingsRemove st.pings data,
                                       heap := heapSet st.heap pid p' }, []))
    else if opcode = OPCODE_CLOSE then
      let st1 := { st with code := some (fromBytesBE (data.take 2)),
                           reason := some (utf8DecodeLossyStr data) }
      some (wsClose st1 none)
    else if opcode = OPCODE_BINARY then
      some (Except.ok ({ st with input := st.input ++ [Msg.bin data] }, []))
    else if opcode = OPCODE_TEXT then
      some (Except.ok ({ st with input := st.input ++ [Msg.text (utf8DecodeLossyStr data)] }, []))
    else some (wsClose st (some REASON_NOT_SUPPORTED))

/-! ## Public API (`WebSocket.send` / `recv` / `ping`) -/

/-- `WebSocket.send(data)` up to the enqueue: the closed-check, the fresh
promise (id `pid`), the opcode choice and the output-queue append.  The
subsequent blocking `promise.get(timeout)` is not part of the state
transition. -/
def wsSend (st : WSState) (m : Msg) (pid : Nat) : Except Exc WSState :=
  if st.closed then Except.error Exc.ioErrorClosed
  else
    let entry : Option Nat × Nat × List Nat :=
      match m with
      | Msg.text s => (some pid, OPCODE_TEXT, utf8Encode s)
      | Msg.bin b => (some pid, OPCODE_BINARY, b)
    Except.ok { st with heap := st.heap ++ [(pid, Promise.pending)],
                        output := st.output ++ [entry] }

/-- `WebSocket.recv()` without the timeout path: `none` models the blocking
wait for `closed or len(input)`; afterwards the front message is popped, or
`IOError('WebSocket is closed')` is raised on an empty queue. -/
def wsRecv (st : WSState) : Option (Except Exc (Msg × WSState)) :=
  if st.closed || !st.input.isEmpty then
    some (match st.input with
      | m :: rest => Except.ok (m, { st with input := rest })
      | [] => Except.error Exc.ioErrorClosed)
  else none

/-- `WebSocket.ping(timeout)` up to the enqueue: closed-check, fresh promise
(id `pid`), registry insert under the 4-byte `nonce`, PING enqueued with no
promise attached. -/
def wsPing (st : WSState) (nonce : List Nat) (pid : Nat) : Except Exc WSState :=
  if st.closed then Except.error Exc.ioErrorClosed
  else Except.ok { st with heap := st.heap ++ [(pid, Promise.pending)],
                           pings := pingsSet st.pings nonce pid,
                           output := st.output ++ [(none, OPCODE_PING, nonce)] }

/-! ## SHA-1 and base64 (`hashlib.new('sha1')`, `base64.b64encode`),
needed by `create_accept_key` in `src/websocket/_accept.py`.
All words are 32-bit, kept as `Nat` reduced `% 2 ^ 32`. -/

def rotl32 (s x : Nat) : Nat :=
  ((x <<< s) ||| (x >>> (32 - s))) % 4294967296

/-- Merkle–Damgård padding: `0x80`, zeros to 56 mod 64, 8-byte big-endian
bit length. -/
def sha1Pad (msg : List Nat) : List Nat :=
  msg ++ [0x80] ++ List.replicate ((55 + 64 - msg.length % 64) % 64) 0
    ++ toBytesBE 8 (msg.length * 8)

def sha1Words (chunk : List Nat) : List Nat :=
  (List.range 16).map (fun i => fromBytesBE ((chunk.drop (4 * i)).take 4))

def sha1Schedule (w16 : List Nat) : List Nat :=
  (List.range 64).foldl
    (fun w _ =>
      let n := w.length
      w ++ [rotl32 1 ((w.getD (n - 3) 0) ^^^ (w.getD (n - 8) 0)
        ^^^ (w.getD (n - 14) 0) ^^^ (w.getD (n - 16) 0))])
    w16

def sha1Round (w : List Nat) (st : Nat × Nat × Nat × Nat × Nat) (i : Nat) :
    Nat × Nat × Nat × Nat × Nat :=
  let (a, b, c, d, e) := st
  let f :=
    if i < 20 then (b &&& c) ||| ((0xFFFFFFFF ^^^ b) &&& d)
    else if i < 40 then b ^^^ c ^^^ d
    else if i < 60 then (b &&& c) ||| (b &&& d) ||| (c &&& d)
    else b ^^^ c ^^^ d
  let k :=
    if i < 20 then 0x5A827999
    else if i < 40 then 0x6ED9EBA1
    else if i < 60 then 0x8F1BBCDC
    else 0xCA62C1D6
  let temp := (rotl32 5 a + f + e + k + w.getD i 0) % 4294967296
  (temp, a, rotl32 30 b, c, d)

def sha1Compress (h : Nat × Nat × Nat × Nat × Nat) (chunk : List Nat) :
    Nat × Nat × Nat × Nat × Nat :=
  let w := sha1Schedule (sha1Words chunk)
  let (h0, h1, h2, h3, h4) := h
  let (a, b, c, d, e) := (List.range 80).foldl (sha1Round w) (h0, h1, h2, h3, h4)
  ((h0 + a) % 4294967296, (h1 + b) % 4294967296, (h2 + c) % 4294967296,
   (h3 + d) % 4294967296, (h4 + e) % 4294967296)

/-- `hashlib.new('sha1', msg).digest()` as a 20-byte list. -/
def sha1Bytes (msg : List Nat) : List Nat :=
  let padded := sha1Pad msg
  let hs := (List.range (padded.length / 64)).foldl
    (fun h i => sha1Compress h ((padded.drop (64 * i)).take 64))
    (0x67452301, 0xEFCDAB89, 0x98BADCFE, 0x10325476, 0xC3D2E1F0)
  toBytesBE 4 hs.1 ++ toBytesBE 4 hs.2.1 ++ toBytesBE 4 hs.2.2.1
    ++ toBytesBE 4 hs.2.2.2.1 ++ toBytesBE 4 hs.2.2.2.2

def b64Char (n : Nat) : Char :=
  "ABCDEFGHIJKLMNOPQRSTUVWXYZabcdefghijklmnopqrstuvwxyz0123456789+/".data.getD n 'A'

/-- `base64.b64encode` with `=` padding. -/
def b64Encode : List Nat → List Char
  | [] => []
  | [b0] => [b64Char (b0 >>> 2), b64Char ((b0 &&& 3) <<< 4), '=', '=']
  | [b0, b1] => [b64Char (b0 >>> 2), b64Char (((b0 &&& 3) <<< 4) ||| (b1 >>> 4)),
                 b64Char ((b1 &&& 15) <<< 2), '=']
  | b0 :: b1 :: b2 :: rest =>
    b64Char (b0 >>> 2) :: b64Char (((b0 &&& 3) <<< 4) ||| (b1 >>> 4))
      :: b64Char (((b1 &&& 15) <<< 2) ||| (b2 >>> 6)) :: b64Char (b2 &&& 63)
      :: b64Encode rest

/-- The fixed GUID appended to the client key. -/
def MAGIC : String := "258EAFA5-E914-47DA-95CA-C5AB0DC85B11"

/-- `create_accept_key(key)` from `src/websocket/_accept.py`:
`base64(sha1((key + MAGIC).encode()))`. -/
def create_accept_key (key : String) : String :=
  String.mk (b64Encode (sha1Bytes (utf8Encode (key ++ MAGIC))))

/-! ## HTTP request parsing (`src/websocket/_http.py`)

The two anchored regexes of the source, `(\w+) (\S+) HTTP/(\d\.\d)` and
`((?:\w|-)+): (.*)`, are deterministic on their character classes (no
class contains the delimiter that follows it), so greedy matching is the
take-longest-run parser written out below.  Character classes are the
ASCII fragments of Python's `\w`, `\S`, `\d`, `.` — the inputs of this
protocol are ASCII. -/

def isWordChar (c : Char) : Bool := c.isAlphanum || c == '_'

def isSpaceChar (c : Char) : Bool :=
  c == ' ' || c == '\t' || c == '\n' || c == '\r'
    || c == Char.ofNat 11 || c == Char.ofNat 12

/-- `parse_http_request(data)`: method, URI, HTTP version.  `none` is the
failed `assert match`. -/
def parse_http_request (line : List Char) : Option (String × String × String) :=
  let m := line.takeWhile isWordChar
  let r1 := line.dropWhile isWordChar
  if m.isEmpty then none
  else
    match r1 with
    | ' ' :: r2 =>
      let u := r2.takeWhile (fun c => !(isSpaceChar c))
      let r3 := r2.dropWhile (fun c => !(isSpaceChar c))
      if u.isEmpty then none
      else
        match r3 with
        | ' ' :: 'H' :: 'T' :: 'T' :: 'P' :: '/' :: d1 :: '.' :: d2 :: _ =>
          if d1.isDigit && d2.isDigit then
            some (String.mk m, String.mk u, String.mk [d1, '.', d2])
          else none
        | _ => none
    | _ => none

/-- `parse_http_header(data)`: header name and value.  The value group
`(.*)` stops at a newline inside the line. -/
def parse_http_header (line : List Char) : Option (String × String) :=
  let n := line.takeWhile (fun c => isWordChar c || c == '-')
  let r := line.dropWhile (fun c => isWordChar c || c == '-')
  if n.isEmpty then none
  else
    match r with
    | ':' :: ' ' :: rest =>
      some (String.mk n, String.mk (rest.takeWhile (fun c => c != '\n')))
    | _ => none

/-- `str.split('\r\n')`: non-overlapping, left to right. -/
def splitCRLF : List Char → List (List Char)
  | [] => [[]]
  | '\r' :: '\n' :: rest => [] :: splitCRLF rest
  | c :: rest =>
    match splitCRLF rest with
    | [] => [[c]]
    | l :: ls => (c :: l) :: ls

def parseHeaders : List (List Char) → Option (List (String × String))
  | [] => some []
  | l :: ls =>
    match parse_http_header l with
    | none => none
    | some kv => (parseHeaders ls).map (kv :: ·)

/-- `dict(...)` lookup: the later binding of a repeated key wins. -/
def dictGet (hs : List (String × String)) (k : String) : Option String :=
  (hs.reverse.find? (fun q => q.1 == k)).map (·.2)

/-- `parse_http(data)`: `none` is any failed `assert` inside. -/
def parse_http (data : String) :
    Option (String × String × String × List (String × String)) :=
  let cs := data.data
  if 4 < cs.length ∧ cs.drop (cs.length - 4) = ['\r', '\n', '\r', '\n'] then
    match splitCRLF (cs.take (cs.length - 4)) with
    | [] => none
    | first :: rest =>
      match parse_http_request first with
      | none => none
      | some (m, u, v) =>
        (parseHeaders rest).map (fun hs => (m, u, v, hs))
  else none

/-! ## Handshake response (`create_response`, `accept` in `_accept.py`) -/

def successResponse (key : String) : String :=
  "HTTP/1.1 101 WebSocket Upgrade\r\nConnection: Upgrade\r\nUpgrade: websocket\r\nSec-WebSocket-Accept: "
    ++ create_accept_key key ++ "\r\n\r\n"

/-- `create_response(request, validate)`: the named handshake error or the
101 response text. -/
def create_response (request : String) (validate : Option (String → Bool)) :
    Except HsError String :=
  match parse_http request with
  | none => Except.error HsError.badRequest
  | some (method, uri, version, headers) =>
    let connection := dictGet headers "Connection"
    let upgrade := dictGet headers "Upgrade"
    let key := dictGet headers "Sec-WebSocket-Key"
    if method ≠ "GET" then Except.error HsError.methodNotAllowed
    else if version ≠ "1.1" then Except.error HsError.upgradeRequired
    else if connection ≠ some "Upgrade" then Except.error HsError.upgradeRequired
    else if upgrade ≠ some "websocket" then Except.error HsError.badRequest
    else
      match key with
      | none => Except.error HsError.badRequest
      | some k =>
        match validate with
        | some f => if !f uri then Except.error HsError.notFound
                    else Except.ok (successResponse k)
        | none => Except.ok (successResponse k)

/-- The fixed error responses of `_accept.py`. -/
def errorResponseText : HsError → String
  | HsError.badRequest => "HTTP/1.1 400 Bad Request\r\n\r\n"
  | HsError.notFound => "HTTP/1.1 404 Not Found\r\n\r\n"
  | HsError.methodNotAllowed => "HTTP/1.1 405 Method Not Allowed\r\n\r\n"
  | HsError.requestTimeout => "HTTP/1.1 408 Request Timeout\r\n\r\n"
  | HsError.upgradeRequired =>
    "HTTP/1.1 426 Upgrade Required\r\nConnection: Upgrade\r\nUpgrade: websocket\r\n\r\n"

/-- `accept(client, timeout, validate)` given the bytes `data` that the
read loop captured (decoded; a capture that never reached `\r\n\r\n` —
timeout or oversize — fails the terminator check).  Returns the socket
actions performed and the error re-raised to the caller.  The source sends
a response in every case and never closes or shuts down the socket here. -/
def acceptOutcome (data : String) (validate : Option (String → Bool)) :
    Except HsError String :=
  if data.data.length < 4
      ∨ data.data.drop (data.data.length - 4) ≠ ['\r', '\n', '\r', '\n'] then
    Except.error HsError.requestTimeout
  else create_response data validate

def acceptModel (data : String) (validate : Option (String → Bool)) :
    List SockAction × Option HsError :=
  match acceptOutcome data validate with
  | Except.ok resp => ([SockAction.sendBytes (utf8Encode resp)], none)
  | Except.error e => ([SockAction.sendBytes (utf8Encode (errorResponseText e))], some e)

/-- `WebSocket.accept(timeout, validate)`: asserts `not closed` and
`not handshake`, delegates to `accept`, sets `handshake` on success.  On a
handshake error the exception propagates and the state is untouched. -/
def wsAccept (st : WSState) (data : String) (validate : Option (String → Bool)) :
    List SockAction × Except Exc WSState :=
  if st.closed || st.handshake then ([], Except.error Exc.assertionError)
  else
    match acceptModel data validate with
    | (acts, some e) => (acts, Except.error (Exc.hs e))
    | (acts, none) => (acts, Except.ok { st with handshake := true })

/-! ## Common concrete states for the claim statements -/

/-- A fresh endpoint right after a successful `accept`. -/
def handshakeState : WSState := { initialState with handshake := true }

/-! ## Claims -/

set_option maxRecDepth 1000000 in
/-- C7: for every client key string `k`, the computed Sec-WebSocket-Accept
value equals the base64 encoding of the SHA-1 digest of the UTF-8 bytes of
`k` concatenated with the magic string; the RFC 6455 key
`dGhlIHNhbXBsZSBub25jZQ==` yields `s3pPLMBiTxaQ9kYGzzhZRbK+xOo=`. -/
theorem C7_accept_key_correct (k : String) :
    create_accept_key k = String.mk (b64Encode (sha1Bytes (utf8Encode (k ++ MAGIC))))
    ∧ create_accept_key "dGhlIHNhbXBsZSBub25jZQ==" = "s3pPLMBiTxaQ9kYGzzhZRbK+xOo=" :=
  ⟨rfl, by decide⟩

theorem C7_witness :
    create_accept_key "dGhlIHNhbXBsZSBub25jZQ==" = "s3pPLMBiTxaQ9kYGzzhZRbK+xOo=" :=
  (C7_accept_key_correct "dGhlIHNhbXBsZSBub25jZQ==").2

/-- C8: decoding an encoder-produced frame restores `(fin = 1, opcode,
payload)` for the text and binary opcodes and any payload length Python's
`to_bytes(8)` accepts; the encoder picks the 7-bit length field below 126,
the 126 marker with 2 big-endian bytes below `2^16`, and the 127 marker
with 8 big-endian bytes from `2^16` on. -/
theorem C8_frame_codec_roundtrip (opcode : Nat) (data : List Nat)
    (hop : opcode = OPCODE_TEXT ∨ opcode = OPCODE_BINARY)
    (hlen : data.length < 2 ^ 64) :
    recvPacketBytes (sendPacketBytes opcode data) = some (1, opcode, data, [])
    ∧ (data.length < 126 →
        sendPacketBytes opcode data = (0x80 ||| opcode) :: data.length :: data)
    ∧ (126 ≤ data.length → data.length < 2 ^ 16 →
        sendPacketBytes opcode data
          = (0x80 ||| opcode) :: 126 :: (toBytesBE 2 data.length ++ data))
    ∧ (2 ^ 16 ≤ data.length →
        sendPacketBytes opcode data
          = (0x80 ||| opcode) :: 127 :: (toBytesBE 8 data.length ++ data)) := by
  have hop16 : opcode < 16 := by
    rcases hop with h | h <;> rw [h] <;> decide
  refine ⟨recvPacket_sendPacket opcode data hop16 hlen, ?_, ?_, ?_⟩
  · intro h
    simp [sendPacketBytes, h]
  · intro h1 h2
    have n1 : ¬ data.length < 126 := by omega
    have n2 : data.length < 0x10000 := by norm_num at h2 ⊢; omega
    simp [sendPacketBytes, n1, n2]
  · intro h
    have n1 : ¬ data.length < 126 := by norm_num at h ⊢; omega
    have n2 : ¬ data.length < 0x10000 := by norm_num at h ⊢; omega
    simp [sendPacketBytes, n1, n2]

theorem C8_witness :
    recvPacketBytes (sendPacketBytes OPCODE_TEXT [104, 105])
      = some (1, OPCODE_TEXT, [104, 105], [])
    ∧ sendPacketBytes OPCODE_TEXT [104, 105]
      = (0x80 ||| OPCODE_TEXT) :: 2 :: [104, 105] := by
  have h := C8_frame_codec_roundtrip OPCODE_TEXT [104, 105] (Or.inl rfl) (by norm_num)
  exact ⟨h.1, h.2.1 (by norm_num)⟩

/-- C9: `cancel`, `set_result` and `set_error` on a promise whose state has
left pending raise an assertion error; in particular a second `cancel` on
the same promise fails rather than being a no-op. -/
theorem C9_promise_settled_asserts :
    (∀ p : Promise, p.done = true →
      p.cancel = Except.error Exc.assertionError
      ∧ p.set_result = Except.error Exc.assertionError
      ∧ ∀ e, p.set_error e = Except.error Exc.assertionError)
    ∧ (∀ p p' : Promise, p.cancel = Except.ok p' →
        p'.cancel = Except.error Exc.assertionError) := by
  constructor
  · intro p hp
    have hs : ¬ p.state = 0 := by simpa [Promise.done] using hp
    exact ⟨by simp [Promise.cancel, Promise.set_error, hs],
           by simp [Promise.set_result, hs],
           fun e => by simp [Promise.set_error, hs]⟩
  · intro p p' h
    unfold Promise.cancel Promise.set_error at h
    split at h
    · cases h
    · cases h
      simp [Promise.cancel, Promise.set_error]

theorem C9_witness :
    (⟨1, none⟩ : Promise).cancel = Except.error Exc.assertionError
    ∧ (⟨2, some Exc.cancelledExc⟩ : Promise).cancel = Except.error Exc.assertionError :=
  ⟨(C9_promise_settled_asserts.1 ⟨1, none⟩ (by decide)).1,
   C9_promise_settled_asserts.2 Promise.pending ⟨2, some Exc.cancelledExc⟩ (by decide)⟩

/-- C1: what the code actually does at the claim's inputs.  A remote CLOSE
frame with the 2-byte payload `03 E8` sets `code = 1000` but decodes the
*entire* payload into `reason` — giving `"\x03"`, not the empty remainder
the claim states.  A local close with a reason code after handshake sets
`code` and stores the registered message into the write-only attribute
`self.__message`, so the `reason` accessor still returns `None`. -/
theorem C1_close_reason_divergence :
    workerDispatch handshakeState (mkFrame 1 0 OPCODE_CLOSE [3, 232])
      = some (Except.ok ({ handshakeState with
            code := some 1000, reason := some "\x03", closed := true },
          [SockAction.shutdownWr, SockAction.closeSock]))
    ∧ some "\x03" ≠ some ""
    ∧ wsClose handshakeState (some REASON_NORMAL)
      = Except.ok ({ handshakeState with
            code := some 1000, message := some "", closed := true },
          [SockAction.sendBytes [136, 2, 3, 232],
           SockAction.shutdownWr, SockAction.closeSock])
    ∧ ({ handshakeState with
          code := some 1000, message := some "", closed := true } : WSState).reason
        = none := by
  refine ⟨by decide, by decide, by decide, by decide⟩

/-- C10: on a remote CLOSE the worker invokes local close without a reason
code, so no CLOSE frame is emitted: the only socket operations are the
half-close of the write side and the transport close. -/
theorem C10_remote_close_no_close_frame (st : WSState)
    (input data rest : List Nat) (heap' : Heap)
    (hnc : st.closed = false)
    (hmsg : recvMessageBytes input = some (Except.ok (OPCODE_CLOSE, data, rest)))
    (hdrain : drainOutput st.heap st.output = Except.ok heap') :
    workerDispatch st input
      = some (Except.ok
          ({ st with code := some (fromBytesBE (data.take 2)),
                     reason := some (utf8DecodeLossyStr data),
                     closed := true, heap := heap', output := [] },
           [SockAction.shutdownWr, SockAction.closeSock])) := by
  unfold workerDispatch
  rw [hmsg]
  simp [OPCODE_PING, OPCODE_PONG, OPCODE_CLOSE, wsClose, hnc, hdrain]

theorem C10_witness :
    workerDispatch handshakeState (mkFrame 1 0 OPCODE_CLOSE [3, 233, 103])
      = some (Except.ok ({ handshakeState with
            code := some (fromBytesBE ([3, 233, 103].take 2)),
            reason := some (utf8DecodeLossyStr [3, 233, 103]),
            closed := true, heap := [], output := [] },
          [SockAction.shutdownWr, SockAction.closeSock])) :=
  C10_remote_close_no_close_frame handshakeState
    (mkFrame 1 0 OPCODE_CLOSE [3, 233, 103]) [3, 233, 103] [] []
    rfl (by decide) (by decide)

theorem wsClose_of_closed {st : WSState} (h : st.closed = true) (r : Option Nat) :
    wsClose st r = Except.ok (st, []) := by
  simp [wsClose, h]

/-- C6: once `closed` is true it stays true — `send` and `ping` fail with
the closed-channel `IOError`, `recv` pops the remaining buffered messages
in order and then fails instead of blocking, close is a no-op, and every
state the worker's dispatch step can still produce keeps `closed` set. -/
theorem C6_closed_latch (st : WSState) (h : st.closed = true) :
    (∀ m pid, wsSend st m pid = Except.error Exc.ioErrorClosed)
    ∧ (∀ nonce pid, wsPing st nonce pid = Except.error Exc.ioErrorClosed)
    ∧ (st.input = [] → wsRecv st = some (Except.error Exc.ioErrorClosed))
    ∧ (∀ m rest, st.input = m :: rest →
        wsRecv st = some (Except.ok (m, { st with input := rest })))
    ∧ (∀ r, wsClose st r = Except.ok (st, []))
    ∧ wsClosePublic st = Except.ok (st, [])
    ∧ (∀ input res, workerDispatch st input = some (Except.ok res) →
        res.1.closed = true) := by
  refine ⟨?_, ?_, ?_, ?_, wsClose_of_closed h, ?_, ?_⟩
  · intro m pid
    simp [wsSend, h]
  · intro nonce pid
    simp [wsPing, h]
  · intro hin
    simp [wsRecv, h, hin]
  · intro m rest hin
    simp [wsRecv, h, hin]
  · simp [wsClosePublic, h]
  · intro input res hd
    rcases hmsg : recvMessageBytes input with _ | x
    · simp only [workerDispatch, hmsg] at hd
      cases hd
    · rcases x with e | ⟨opcode, data, rest⟩
      · simp only [workerDispatch, hmsg, wsClose_of_closed h] at hd
        have e1 := Except.ok.inj (Option.some.inj hd)
        subst e1
        exact h
      · simp only [workerDispatch, hmsg] at hd
        by_cases h1 : opcode = OPCODE_PING
        · rw [if_pos h1] at hd
          have e1 := Except.ok.inj (Option.some.inj hd)
          subst e1
          simpa using h
        · rw [if_neg h1] at hd
          by_cases h2 : opcode = OPCODE_PONG
          · rw [if_pos h2] at hd
            rcases hl : pingsLookup st.pings data with _ | pid <;>
              simp only [hl] at hd
            · have e1 := Except.ok.inj (Option.some.inj hd)
              subst e1
              simpa using h
            · rcases hg : heapGet st.heap pid with _ | p <;>
                simp only [hg] at hd
              · have e1 := Except.ok.inj (Option.some.inj hd)
                subst e1
                simpa using h
              · rcases hsr : p.set_result with e2 | p' <;>
                  simp only [hsr] at hd
                · cases Option.some.inj hd
                · have e1 := Except.ok.inj (Option.some.inj hd)
                  subst e1
                  simpa using h
          · rw [if_neg h2] at hd
            by_cases h3 : opcode = OPCODE_CLOSE
            · rw [if_pos h3] at hd
              have hcl1 : ({ st with
                  code := some (fromBytesBE (data.take 2)),
                  reason := some (utf8DecodeLossyStr data) } : WSState).closed = true := by
                simpa using h
              simp only [wsClose_of_closed hcl1] at hd
              have e1 := Except.ok.inj (Option.some.inj hd)
              subst e1
              simpa using h
            · rw [if_neg h3] at hd
              by_cases h4 : opcode = OPCODE_BINARY
              · rw [if_pos h4] at hd
                have e1 := Except.ok.inj (Option.some.inj hd)
                subst e1
                simpa using h
              · rw [if_neg h4] at hd
                by_cases h5 : opcode = OPCODE_TEXT
                · rw [if_pos h5] at hd
                  have e1 := Except.ok.inj (Option.some.inj hd)
                  subst e1
                  simpa using h
                · rw [if_neg h5, wsClose_of_closed h] at hd
                  have e1 := Except.ok.inj (Option.some.inj hd)
                  subst e1
                  exact h

/-- A closed endpoint with one message still buffered. -/
def closedState : WSState :=
  { initialState with closed := true, input := [Msg.text "a"] }

theorem C6_witness :
    wsSend closedState (Msg.bin [1]) 0 = Except.error Exc.ioErrorClosed
    ∧ wsPing closedState [9, 9, 9, 9] 1 = Except.error Exc.ioErrorClosed
    ∧ wsRecv closedState
      = some (Except.ok (Msg.text "a", { closedState with input := [] })) := by
  have h := C6_closed_latch closedState rfl
  exact ⟨h.1 (Msg.bin [1]) 0, h.2.1 [9, 9, 9, 9] 1, h.2.2.2.1 (Msg.text "a") [] rfl⟩

theorem heapGet_cons (x : Nat × Promise) (l : Heap) (j : Nat) :
    heapGet (x :: l) j = if x.1 == j then some x.2 else heapGet l j := by
  cases hxj : (x.1 == j) <;> simp [heapGet, List.find?_cons, hxj]

theorem heapGet_heapSet_ne {l : Heap} {i j : Nat} (p : Promise) (hne : i ≠ j) :
    heapGet (heapSet l i p) j = heapGet l j := by
  induction l with
  | nil => rfl
  | cons q t ih =>
    simp only [heapSet, List.map_cons]
    by_cases hq : q.1 = i
    · have hij : (i == j) = false := by simp [hne]
      have hqj : (q.1 == j) = false := by simp [hq, hne]
      rw [if_pos hq, heapGet_cons, heapGet_cons, hij, hqj]
      simpa [heapSet] using ih
    · rw [if_neg hq, heapGet_cons, heapGet_cons]
      cases hqj : (q.1 == j)
      · simpa [hqj, heapSet] using ih
      · simp [hqj]

/-- `__close`'s drain loop touches only the promises referenced from the
output queue: any other promise id reads the same afterwards. -/
theorem drainOutput_heapGet {out : List (Option Nat × Nat × List Nat)}
    {heap heap' : Heap} (pid : Nat)
    (hd : drainOutput heap out = Except.ok heap')
    (hnotin : ∀ e ∈ out, e.1 ≠ some pid) :
    heapGet heap' pid = heapGet heap pid := by
  induction out generalizing heap with
  | nil =>
    cases hd
    rfl
  | cons e t ih =>
    obtain ⟨pp, op, dat⟩ := e
    rcases pp with _ | epid
    · simp only [drainOutput] at hd
      exact ih hd (fun x hx => hnotin x (List.mem_cons_of_mem _ hx))
    · have hne : epid ≠ pid := by
        have := hnotin (some epid, op, dat) (List.mem_cons_self _ _)
        simpa using this
      simp only [drainOutput] at hd
      cases hg : heapGet heap epid <;> simp only [hg] at hd
      · exact ih hd (fun x hx => hnotin x (List.mem_cons_of_mem _ hx))
      · rename_i p
        split at hd
        · exact ih hd (fun x hx => hnotin x (List.mem_cons_of_mem _ hx))
        · cases hsr : p.set_error Exc.ioErrorClosed <;> simp only [hsr] at hd
          · cases hd
          · rename_i p'
            calc heapGet heap' pid
                = heapGet (heapSet heap epid p') pid :=
                  ih hd (fun x hx => hnotin x (List.mem_cons_of_mem _ hx))
              _ = heapGet heap pid := heapGet_heapSet_ne p' hne

/-- An endpoint with one pending ping in flight (nonce `[1,2,3,4]`, promise
id `0`) and an empty output queue. -/
def pingState : WSState :=
  { initialState with
    handshake := true,
    pings := [([1, 2, 3, 4], 0)],
    heap := [(0, Promise.pending)] }

/-- C3 counterexample: close does **not** cancel or error the pending ping
promise — after a local close the registry entry is still there and its
promise is still pending (`done = false`, `cancelled = false`). -/
theorem C3_counterexample :
    wsClose pingState (some REASON_NORMAL)
      = Except.ok ({ pingState with
            closed := true, code := some 1000, message := some "" },
          [SockAction.sendBytes [136, 2, 3, 232],
           SockAction.shutdownWr, SockAction.closeSock])
    ∧ ({ pingState with
          closed := true, code := some 1000, message := some "" } : WSState).pings
        = [([1, 2, 3, 4], 0)]
    ∧ heapGet ({ pingState with
          closed := true, code := some 1000, message := some "" } : WSState).heap 0
        = some Promise.pending
    ∧ Promise.pending.done = false
    ∧ Promise.pending.cancelled = false :=
  ⟨by decide, by decide, by decide, by decide, by decide⟩

/-- C3 as the code has it: `__close` drains only the output queue; the
`pings` registry is left untouched and every promise a ping entry refers to
(no output entry may share its id — ping enqueues carry no promise) keeps
its state, so a pending ping waiter stays pending until its own timeout. -/
theorem C3_close_leaves_pings (st : WSState) (r : Option Nat)
    (st' : WSState) (acts : List SockAction)
    (hc : wsClose st r = Except.ok (st', acts))
    (hdisj : ∀ nonce pid, (nonce, pid) ∈ st.pings → ∀ e ∈ st.output, e.1 ≠ some pid) :
    st'.pings = st.pings
    ∧ ∀ nonce pid, (nonce, pid) ∈ st.pings →
        heapGet st'.heap pid = heapGet st.heap pid := by
  by_cases hcl : st.closed
  · rw [wsClose_of_closed hcl r] at hc
    cases Except.ok.inj hc
    exact ⟨rfl, fun _ _ _ => rfl⟩
  · rcases r with _ | rv
    · simp only [wsClose, hcl] at hc
      cases hdr : drainOutput st.heap st.output <;> simp only [hdr] at hc
      · cases hc
      · cases Except.ok.inj hc
        refine ⟨rfl, fun nonce pid hmem => ?_⟩
        exact drainOutput_heapGet pid hdr (hdisj nonce pid hmem)
    · by_cases hhs : st.handshake
      · simp only [wsClose, hcl, hhs, if_true] at hc
        cases hdr : drainOutput st.heap st.output <;> simp only [hdr] at hc
        · cases hc
        · cases Except.ok.inj hc
          refine ⟨rfl, fun nonce pid hmem => ?_⟩
          exact drainOutput_heapGet pid hdr (hdisj nonce pid hmem)
      · simp only [wsClose, hcl, hhs, Bool.false_eq_true, if_false] at hc
        cases hdr : drainOutput st.heap st.output <;> simp only [hdr] at hc
        · cases hc
        · cases Except.ok.inj hc
          refine ⟨rfl, fun nonce pid hmem => ?_⟩
          exact drainOutput_heapGet pid hdr (hdisj nonce pid hmem)

theorem C3_witness :
    ({ pingState with
        closed := true, code := some 1000, message := some "" } : WSState).pings
      = pingState.pings
    ∧ heapGet ({ pingState with
        closed := true, code := some 1000, message := some "" } : WSState).heap 0
      = heapGet pingState.heap 0 := by
  have h := C3_close_leaves_pings pingState (some REASON_NORMAL)
    ({ pingState with closed := true, code := some 1000, message := some "" })
    [SockAction.sendBytes [136, 2, 3, 232],
     SockAction.shutdownWr, SockAction.closeSock]
    (by decide)
    (by intro nonce pid _ e he; simp [pingState, initialState] at he)
  exact ⟨h.1, h.2 [1, 2, 3, 4] 0 (by simp [pingState])⟩

/-- A well-formed upgrade request used as concrete input. -/
def reqC5 : String :=
  "GET / HTTP/1.1\r\nConnection: Upgrade\r\nUpgrade: websocket\r\nSec-WebSocket-Key: x\r\n\r\n"

/-- C5 counterexample: on a request that passes every mandatory check, a
rejecting predicate produces `NotFound`, not the `BadRequest` the claim
states — and the predicate receives the URI only (its Lean type
`String → Bool` reflects the source's `validate(uri)`). -/
theorem C5_counterexample :
    create_response reqC5 (some (fun _ => false)) = Except.error HsError.notFound
    ∧ (Except.error HsError.notFound : Except HsError String)
        ≠ Except.error HsError.badRequest :=
  ⟨by decide, by decide⟩

/-- C5 as the code has it: when the request parses, the method, version and
header checks pass, and the caller-supplied predicate returns false on the
URI, `create_response` fails with `NotFound`. -/
theorem C5_validate_false_notFound (request : String) (f : String → Bool)
    (m u v : String) (hs : List (String × String)) (k : String)
    (hparse : parse_http request = some (m, u, v, hs))
    (hm : m = "GET") (hv : v = "1.1")
    (hconn : dictGet hs "Connection" = some "Upgrade")
    (hupg : dictGet hs "Upgrade" = some "websocket")
    (hkey : dictGet hs "Sec-WebSocket-Key" = some k)
    (hf : f u = false) :
    create_response request (some f) = Except.error HsError.notFound := by
  subst hm hv
  simp [create_response, hparse, hconn, hupg, hkey, hf]

theorem C5_witness :
    create_response reqC5 (some (fun s => s != "/")) = Except.error HsError.notFound :=
  C5_validate_false_notFound reqC5 (fun s => s != "/") "GET" "/" "1.1"
    [("Connection", "Upgrade"), ("Upgrade", "websocket"), ("Sec-WebSocket-Key", "x")]
    "x" (by decide) rfl rfl (by decide) (by decide) (by decide) (by decide)

/-- C2 counterexample: on a failed handshake (here: a capture without the
CRLF-CRLF terminator, i.e. a timed-out read), `accept` sends the matching
fixed error response and re-raises the error — but performs **no** shutdown
and **no** close on the connection, and the endpoint state is untouched
(`closed` stays false), contradicting the claim's "closes the connection so
the endpoint is terminally closed". -/
theorem C2_counterexample :
    wsAccept initialState "XYZ" none
      = ([SockAction.sendBytes (utf8Encode "HTTP/1.1 408 Request Timeout\r\n\r\n")],
         Except.error (Exc.hs HsError.requestTimeout))
    ∧ SockAction.closeSock ∉ (wsAccept initialState "XYZ" none).1
    ∧ SockAction.shutdownWr ∉ (wsAccept initialState "XYZ" none).1
    ∧ initialState.closed = false :=
  ⟨by decide, by decide, by decide, rfl⟩

/-- C2 as the code has it: for every failing handshake, `accept` sends
exactly the matching fixed HTTP error response and re-raises the original
handshake error to the caller; it does not shut down or close the
connection, and the endpoint state is unchanged (in particular it is not
closed — the error is returned with no new state). -/
theorem C2_accept_failure (st : WSState) (data : String)
    (v : Option (String → Bool)) (e : HsError)
    (hcl : st.closed = false) (hhs : st.handshake = false)
    (he : (acceptModel data v).2 = some e) :
    wsAccept st data v
      = ([SockAction.sendBytes (utf8Encode (errorResponseText e))],
         Except.error (Exc.hs e))
    ∧ SockAction.closeSock ∉ (wsAccept st data v).1
    ∧ SockAction.shutdownWr ∉ (wsAccept st data v).1 := by
  have hmodel : acceptModel data v
      = ([SockAction.sendBytes (utf8Encode (errorResponseText e))], some e) := by
    cases hres : acceptOutcome data v with
    | error e2 =>
      simp only [acceptModel, hres] at he ⊢
      cases Option.some.inj he
      rfl
    | ok resp =>
      simp only [acceptModel, hres] at he
      cases he
  have hflags : (st.closed || st.handshake) = false := by
    simp [hcl, hhs]
  refine ⟨?_, ?_, ?_⟩ <;> simp [wsAccept, hflags, hmodel]

theorem C2_witness :
    wsAccept initialState "GET / HTTP/1.0\r\n\r\n" none
      = ([SockAction.sendBytes (utf8Encode (errorResponseText HsError.upgradeRequired))],
         Except.error (Exc.hs HsError.upgradeRequired)) :=
  (C2_accept_failure initialState "GET / HTTP/1.0\r\n\r\n" none
    HsError.upgradeRequired rfl rfl (by decide)).1

/-- `recvPacket_mkFrame` with arbitrary trailing input. -/
theorem recvPacket_mkFrame_append (fin rsv opcode : Nat) (data tail : List Nat)
    (hf : fin < 2) (hr : rsv < 8) (ho : opcode < 16) (hl : data.length < 126) :
    recvPacketBytes (mkFrame fin rsv opcode data ++ tail)
      = some (fin, opcode, data, tail) := by
  have h1 := (octet1_fields fin hf rsv hr opcode ho).1
  have h2 := (octet1_fields fin hf rsv hr opcode ho).2
  have e : mkFrame fin rsv opcode data ++ tail
      = (fin * 128 + rsv * 16 + opcode) :: data.length :: (data ++ tail) := by
    simp [mkFrame, hl]
  have hne126 : data.length ≠ 126 := by omega
  have hne127 : data.length ≠ 127 := by omega
  have hrd : readN data.length (data ++ tail) = some (data, tail) :=
    readN_exact rfl
  rw [e]
  simp only [recvPacketBytes, h1, h2, len_and data.length hl,
    len_shift data.length hl, hne126, hne127, if_false, ite_false]
  simp [hrd]

/-- A single fin=1 frame is one whole message. -/
theorem recvMessage_single (rsv opcode : Nat) (data : List Nat)
    (hr : rsv < 8) (ho : opcode < 16) (hl : data.length < 126) :
    recvMessageBytes (mkFrame 1 rsv opcode data)
      = some (Except.ok (opcode, data, [])) := by
  unfold recvMessageBytes
  rw [recvPacket_mkFrame 1 rsv opcode data (by norm_num) hr ho hl]
  simp

/-- A fin=0 PING frame followed by a fin=1 frame: a continuation (opcode 0)
is merged into the PING message; any other opcode fails the `assert`. -/
theorem recvMessage_frag (op2 : Nat) (d1 d2 : List Nat) (ho2 : op2 < 16)
    (hl1 : d1.length < 126) (hl2 : d2.length < 126) :
    recvMessageBytes (mkFrame 0 0 OPCODE_PING d1 ++ mkFrame 1 0 op2 d2)
      = if op2 = 0 then some (Except.ok (OPCODE_PING, d1 ++ d2, []))
        else some (Except.error ()) := by
  have hloop : recvLoop (mkFrame 1 0 op2 d2)
      = if op2 = 0 then some (Except.ok (d2, []))
        else some (Except.error ()) := by
    rw [recvLoop]
    rw [recvPacket_mkFrame 1 0 op2 d2 (by norm_num) (by norm_num) ho2 hl2]
    by_cases h0 : op2 = 0
    · simp [h0]
    · simp [h0]
  unfold recvMessageBytes
  rw [recvPacket_mkFrame_append 0 0 OPCODE_PING d1 (mkFrame 1 0 op2 d2)
    (by norm_num) (by norm_num) (by decide) hl1]
  by_cases h0 : op2 = 0
  · subst h0
    simp [hloop]
  · simp [hloop, h0]

/-- C4 counterexample: a frame with RSV1 set (first byte `0xC1`: fin=1,
RSV1=1, opcode text) is **not** answered with a protocol-error close — the
decoder never inspects the RSV bits, the message is delivered, no socket
action is taken, and the endpoint stays open with no close code. -/
theorem C4_counterexample :
    workerDispatch handshakeState [0xC1, 1, 65]
      = some (Except.ok ({ handshakeState with input := [Msg.text "A"] }, []))
    ∧ ({ handshakeState with input := [Msg.text "A"] } : WSState).closed = false
    ∧ ({ handshakeState with input := [Msg.text "A"] } : WSState).code = none :=
  ⟨by decide, by decide, by decide⟩

/-- C4 as the code has it: nonzero RSV bits are ignored by the decoder (the
decode result does not depend on them, no close follows); an unknown
non-control opcode — including opcode 0 with fin=1, i.e. a continuation
with no preceding starter — reaches the dispatch's default branch and
closes with 1003; a continuation frame carrying a nonzero opcode inside a
fragmented message fails the `assert opcode == 0` and closes with 1002; a
control frame with fin=0 is *reassembled* with its continuation rather
than rejected (a PING's payload is concatenated and a PONG is enqueued). -/
theorem C4_opcode_dispatch (st : WSState) :
    (∀ (fin rsv opcode : Nat) (data : List Nat),
        fin < 2 → rsv < 8 → opcode < 16 → data.length < 126 →
        recvPacketBytes (mkFrame fin rsv opcode data) = some (fin, opcode, data, []))
    ∧ (∀ (opcode : Nat) (data : List Nat), opcode < 16 →
        opcode ∉ [OPCODE_TEXT, OPCODE_BINARY, OPCODE_CLOSE, OPCODE_PING, OPCODE_PONG] →
        data.length < 126 →
        workerDispatch st (mkFrame 1 0 opcode data)
          = some (wsClose st (some REASON_NOT_SUPPORTED)))
    ∧ (∀ (op2 : Nat) (d1 d2 : List Nat), op2 < 16 → op2 ≠ 0 →
        d1.length < 126 → d2.length < 126 →
        workerDispatch st (mkFrame 0 0 OPCODE_PING d1 ++ mkFrame 1 0 op2 d2)
          = some (wsClose st (some REASON_PROTOCOL_ERROR)))
    ∧ (∀ (d1 d2 : List Nat), d1.length < 126 → d2.length < 126 →
        workerDispatch st (mkFrame 0 0 OPCODE_PING d1 ++ mkFrame 1 0 0 d2)
          = some (Except.ok
              ({ st with output := st.output ++ [(none, OPCODE_PONG, d1 ++ d2)] }, []))) := by
  refine ⟨?_, ?_, ?_, ?_⟩
  · intro fin rsv opcode data hf hr ho hl
    exact recvPacket_mkFrame fin rsv opcode data hf hr ho hl
  · intro opcode data ho hnot hl
    simp only [List.mem_cons, List.mem_singleton, not_or] at hnot
    obtain ⟨hn1, hn2, hn8, hn9, hn10, -⟩ := hnot
    unfold workerDispatch
    rw [recvMessage_single 0 opcode data (by norm_num) ho hl]
    have e9 : opcode ≠ OPCODE_PING := hn9
    have e10 : opcode ≠ OPCODE_PONG := hn10
    have e8 : opcode ≠ OPCODE_CLOSE := hn8
    have e2 : opcode ≠ OPCODE_BINARY := hn2
    have e1 : opcode ≠ OPCODE_TEXT := hn1
    simp [e9, e10, e8, e2, e1]
  · intro op2 d1 d2 ho2 hne hl1 hl2
    have hmsg := recvMessage_frag op2 d1 d2 ho2 hl1 hl2
    rw [if_neg hne] at hmsg
    unfold workerDispatch
    rw [hmsg]
  · intro d1 d2 hl1 hl2
    have hmsg := recvMessage_frag 0 d1 d2 (by norm_num) hl1 hl2
    rw [if_pos rfl] at hmsg
    unfold workerDispatch
    rw [hmsg]
    simp [OPCODE_PING]

theorem C4_witness :
    workerDispatch handshakeState (mkFrame 1 0 3 [7])
      = some (wsClose handshakeState (some REASON_NOT_SUPPORTED))
    ∧ workerDispatch handshakeState (mkFrame 0 0 OPCODE_PING [1] ++ mkFrame 1 0 5 [2])
      = some (wsClose handshakeState (some REASON_PROTOCOL_ERROR)) := by
  have h := C4_opcode_dispatch handshakeState
  exact ⟨h.2.1 3 [7] (by decide) (by decide) (by decide),
         h.2.2.1 5 [1] [2] (by decide) (by decide) (by decide) (by decide)⟩

end WS
